import Mathlib

/-!
Shallow embedding of the stoka shelf-inventory application (src/stoka.py).

The persistent SQLite store is modelled as an explicit `DB` value holding the
three tables (`products`, `shelves`, `reorder_lists`); each Flask handler
becomes a function from `DB` (plus its request parameters) to a new `DB`
together with its response.  Timestamps are passed in as opaque strings, since
`datetime.now()` is an external input.
-/

namespace Stoka

/-- Row of the `products` table:
`(product_id INTEGER PRIMARY KEY, product_name TEXT NOT NULL, shelf_number INTEGER, in_stock BOOLEAN)`. -/
structure Product where
  product_id   : Int
  product_name : String
  shelf_number : Int
  in_stock     : Bool
deriving Repr, DecidableEq

/-- Row of the `shelves` table: `(shelf_number INTEGER PRIMARY KEY, checked BOOLEAN)`. -/
structure Shelf where
  shelf_number : Int
  checked      : Bool
deriving Repr, DecidableEq

/-- Row of the `reorder_lists` table:
`(id INTEGER PRIMARY KEY AUTOINCREMENT, timestamp TEXT, content TEXT)`;
`content` holds `json.dumps` of a list of product names, modelled directly as the list. -/
structure Snapshot where
  id        : Int
  timestamp : String
  content   : List String
deriving Repr, DecidableEq

/-- The whole persistent store.  `next_list_id` models the SQLite AUTOINCREMENT
sequence for `reorder_lists`. -/
structure DB where
  products      : List Product
  shelves       : List Shelf
  reorder_lists : List Snapshot
  next_list_id  : Int
deriving Repr, DecidableEq

/-- A handler's JSON response status: `{'status': 'success'}` or
`{'status': 'error', 'message': msg}`. -/
inductive Status where
  | success
  | error (msg : String)
deriving Repr, DecidableEq

/-!
String primitives.  The Python string operations used by the handlers
(`str.strip`, `str.lower`, `int()`, the `csv` comma split, and SQLite's
BINARY text comparison) are modelled by structurally recursive functions on
the character list of a `String`, so that every definition evaluates inside
the kernel.
-/

/-- The whitespace characters removed by Python `str.strip()`
(space, tab, newline, carriage return, vertical tab, form feed; the further
Unicode whitespace accepted by Python never occurs in this development). -/
def isSpaceChar (c : Char) : Bool :=
  c == ' ' || c == '\t' || c == '\n' || c == '\r' ||
    c == Char.ofNat 11 || c == Char.ofNat 12

/-- Remove leading and trailing whitespace from a character list. -/
def stripChars (l : List Char) : List Char :=
  ((l.dropWhile isSpaceChar).reverse.dropWhile isSpaceChar).reverse

/-- Python `s.strip()`. -/
def pyStrip (s : String) : String :=
  ⟨stripChars s.data⟩

/-- ASCII lowercasing of one character, as Python `str.lower()` acts on the
ASCII tokens that occur in the import columns. -/
def charLower (c : Char) : Char :=
  if 65 ≤ c.toNat ∧ c.toNat ≤ 90 then Char.ofNat (c.toNat + 32) else c

/-- Python `s.lower()` (ASCII fragment). -/
def pyLower (s : String) : String :=
  ⟨s.data.map charLower⟩

/-- Lexicographic (codepoint) comparison of character lists: the order SQLite's
default BINARY collation induces on valid UTF-8 text. -/
def charListLe : List Char → List Char → Bool
  | [], _ => true
  | _ :: _, [] => false
  | a :: as, b :: bs =>
    if decide (a < b) then true
    else if decide (b < a) then false
    else charListLe as bs

/-- SQLite BINARY comparison of two TEXT values. -/
def strLe (a b : String) : Bool :=
  charListLe a.data b.data

/-- Accumulate a decimal digit list into a natural number. -/
def digitsToNat (l : List Char) : Nat :=
  l.foldl (fun a c => a * 10 + (c.toNat - 48)) 0

/-- Model of Python `int()` applied to a CSV cell: optional surrounding
whitespace, an optional sign, then one or more decimal digits; anything else
raises `ValueError`.  (Python additionally accepts underscores between digits
and non-ASCII digits; no import field in this development uses them.) -/
def pyInt? (s : String) : Option Int :=
  match stripChars s.data with
  | '-' :: core =>
    if core ≠ [] ∧ core.all (fun c => 48 ≤ c.toNat ∧ c.toNat ≤ 57) then
      some (-(digitsToNat core : Int))
    else none
  | '+' :: core =>
    if core ≠ [] ∧ core.all (fun c => 48 ≤ c.toNat ∧ c.toNat ≤ 57) then
      some (digitsToNat core : Int)
    else none
  | core =>
    if core ≠ [] ∧ core.all (fun c => 48 ≤ c.toNat ∧ c.toNat ≤ 57) then
      some (digitsToNat core : Int)
    else none

/-- Split a line at commas, as `csv.reader` does for unquoted cells. -/
def splitCommaAux : List Char → List Char → List String
  | [], acc => [⟨acc.reverse⟩]
  | c :: rest, acc =>
    if c == ',' then ⟨acc.reverse⟩ :: splitCommaAux rest []
    else splitCommaAux rest (c :: acc)

/-- Split a CSV line into its cells (no quoting; none of the inputs considered
here contain quoted cells). -/
def splitComma (s : String) : List String :=
  splitCommaAux s.data []

/-- Boolean comparison realising `ORDER BY p.shelf_number, p.product_name`
(SQLite compares TEXT with the default BINARY collation, which on valid UTF-8
agrees with codepoint-lexicographic order, i.e. Lean's `String` order). -/
def reorderLE (p q : Product) : Bool :=
  decide (p.shelf_number < q.shelf_number) ||
    (p.shelf_number == q.shelf_number && strLe p.product_name q.product_name)

/-- The reorder query shared verbatim by `get_reorder_list`, `save_reorder_list`,
`export_reorder_list` and `show_inventory`:
`SELECT p.product_id, p.product_name, p.shelf_number
 FROM products p JOIN shelves s ON p.shelf_number = s.shelf_number
 WHERE p.in_stock = 0 AND s.checked = 1
 ORDER BY p.shelf_number, p.product_name`.
The projection to three columns is left implicit (every selected row also has
`in_stock = 0` by the WHERE clause). -/
def reorderQuery (db : DB) : List Product :=
  (db.products.filter (fun p =>
      !p.in_stock && db.shelves.any (fun s =>
        s.shelf_number == p.shelf_number && s.checked))).mergeSort reorderLE

/-- Handler `GET /get_reorder_list`: runs the reorder query and returns it;
performs no writes. -/
def get_reorder_list (db : DB) : DB × List Product :=
  (db, reorderQuery db)

/-- The `session_type` form field of `POST /start_session`. -/
inductive SessionType where
  | new
  | cont
deriving Repr, DecidableEq

/-- Handler `POST /start_session`: on `session_type == 'new'` runs
`UPDATE products SET in_stock = 1` and `UPDATE shelves SET checked = 0`;
any other value changes nothing. -/
def start_session (db : DB) (t : SessionType) : DB :=
  match t with
  | .new =>
      { db with
        products := db.products.map (fun p => { p with in_stock := true }),
        shelves  := db.shelves.map (fun s => { s with checked := false }) }
  | .cont => db

/-- `SELECT MAX(product_id) FROM products`: `none` when the table is empty. -/
def maxProductId (ps : List Product) : Option Int :=
  ps.foldl (fun m p =>
    match m with
    | none => some p.product_id
    | some v => some (max v p.product_id)) none

/-- SQLite rowid assignment for an INSERT that omits `product_id`
(INTEGER PRIMARY KEY): one more than the largest rowid in use, `1` for an
empty table. -/
def newRowId (ps : List Product) : Int :=
  (maxProductId ps).getD 0 + 1

/-- Handler `POST /add_product`: inserts the product with no explicit id
(SQLite assigns the next rowid); `shelf_number` and `in_stock` come from the
form without any validation. -/
def add_product (db : DB) (product_name : String) (shelf_number : Int)
    (in_stock : Bool) : DB × Status :=
  ({ db with
     products := db.products ++
       [⟨newRowId db.products, product_name, shelf_number, in_stock⟩] },
   .success)

/-- Handler `POST /edit_product/<product_id>`: first runs
`SELECT product_id FROM products WHERE product_id = ? AND product_id != ?`
with `(new_product_id, product_id)` and fails with a duplicate-id error when a
row is found; otherwise updates every field of the row whose id is
`product_id`.  `shelf_number` is not validated. -/
def edit_product (db : DB) (product_id new_product_id : Int)
    (product_name : String) (shelf_number : Int) (in_stock : Bool) :
    DB × Status :=
  if db.products.any (fun q =>
      q.product_id == new_product_id && q.product_id != product_id) then
    (db, .error "Product ID already exists.")
  else
    ({ db with
       products := db.products.map (fun q =>
         if q.product_id == product_id then
           ⟨new_product_id, product_name, shelf_number, in_stock⟩
         else q) },
     .success)

/-- Handler `POST /delete_product/<product_id>`: runs
`DELETE FROM products WHERE product_id = ?` and reports success without
checking that the row existed. -/
def delete_product (db : DB) (product_id : Int) : DB × Status :=
  ({ db with
     products := db.products.filter (fun p => p.product_id != product_id) },
   .success)

/-- Handler `POST /delete_reorder_list/<list_id>`: first checks
`SELECT id FROM reorder_lists WHERE id = ?` and returns a not-found error when
no row matches; otherwise deletes the row. -/
def delete_reorder_list (db : DB) (list_id : Int) : DB × Status :=
  if db.reorder_lists.any (fun l => l.id == list_id) then
    ({ db with
       reorder_lists := db.reorder_lists.filter (fun l => l.id != list_id) },
     .success)
  else
    (db, .error "Reorder list not found.")

/-- Handler `POST /update_shelf/<shelf_number>`: sets the shelf's `checked`
flag to the submitted value, collects the ids of all products on that shelf,
and for each such id sets `in_stock` to whether the id occurs among the
`product_<id>` form keys. -/
def update_shelf (db : DB) (shelf_number : Int) (shelf_checked : Bool)
    (checked_product_ids : List Int) : DB × Status :=
  let all_product_ids :=
    (db.products.filter (fun p => p.shelf_number == shelf_number)).map
      (·.product_id)
  ({ db with
     shelves := db.shelves.map (fun s =>
       if s.shelf_number == shelf_number then { s with checked := shelf_checked }
       else s),
     products := db.products.map (fun p =>
       if all_product_ids.contains p.product_id then
         { p with in_stock := checked_product_ids.contains p.product_id }
       else p) },
   .success)

/-- Handler `POST /save_reorder_list`: runs the reorder query; when it is
empty, returns the error `'No items in the reorder list to save.'` without
writing; otherwise inserts a snapshot holding the list's product names. -/
def save_reorder_list (db : DB) (timestamp : String) : DB × Status :=
  let reorder_list := reorderQuery db
  if reorder_list.isEmpty then
    (db, .error "No items in the reorder list to save.")
  else
    ({ db with
       reorder_lists := db.reorder_lists ++
         [⟨db.next_list_id, timestamp, reorder_list.map (·.product_name)⟩],
       next_list_id := db.next_list_id + 1 },
     .success)

/-- The `format` query parameter of the export endpoints (any unrecognised
value is coerced to `txt` before the snapshot insert and so cannot affect the
store). -/
inductive ExportFormat where
  | txt
  | csv
  | json
deriving Repr, DecidableEq

/-- Handler `GET /export_reorder_list?format=...`: runs the reorder query,
unconditionally inserts a snapshot holding the list's product names (before
any format-specific rendering), and returns the names to be rendered in the
requested format. -/
def export_reorder_list (db : DB) (_fmt : ExportFormat) (timestamp : String) :
    DB × List String :=
  let reorder_list := reorderQuery db
  let product_names := reorder_list.map (·.product_name)
  ({ db with
     reorder_lists := db.reorder_lists ++
       [⟨db.next_list_id, timestamp, product_names⟩],
     next_list_id := db.next_list_id + 1 },
   product_names)

/-!
CSV import (`POST /import_products`).

`csv.DictReader` turns the uploaded file into a list of fieldnames (the first
line) and one dict per remaining line; a row is modelled as an association
list from fieldname to cell string.
-/

/-- A `csv.DictReader` row: fieldname-to-value pairs. -/
def Row : Type := List (String × String)

/-- `row.get(key, '')` / `row[key]` on a well-formed `DictReader` row (every
fieldname present). -/
def rowGetD (row : Row) (key : String) (d : String) : String :=
  match row.find? (fun kv => kv.1 == key) with
  | some kv => kv.2
  | none => d

/-- The `column_mapping` alias list for `product_id`. -/
def productIdAliases : List String :=
  ["product_id", "id", "ID", "Product ID"]

/-- The `column_mapping` alias list for `product_name`. -/
def productNameAliases : List String :=
  ["product_name", "name", "Name", "Product Name", "product"]

/-- The `column_mapping` alias list for `shelf_number`. -/
def shelfNumberAliases : List String :=
  ["shelf_number", "shelf", "Shelf", "Shelf Number", "location"]

/-- The `column_mapping` alias list for `in_stock`. -/
def inStockAliases : List String :=
  ["in_stock", "stock", "Stock", "In Stock", "stock_status", "Available"]

/-- Multi-column alias resolution: the first alias (in `column_mapping` order)
that occurs among the fieldnames, exactly as written (case-sensitive). -/
def resolveAlias (fieldnames aliases : List String) : Option String :=
  aliases.find? (fun a => fieldnames.contains a)

/-- Names-only column choice:
`next((f for f in fieldnames if f.lower() in lowered name aliases), fieldnames[0])`. -/
def namesOnlyNameCol (fieldnames : List String) : Option String :=
  match fieldnames.find? (fun f =>
      (productNameAliases.map pyLower).contains (pyLower f)) with
  | some f => some f
  | none => fieldnames.head?

/-- The literal dict `{'true': 1, '1': 1, 'yes': 1, 'y': 1, 't': 1,
'false': 0, '0': 0, 'no': 0, 'n': 0, 'f': 0}.get(raw)` applied to the already
stripped and lowercased token. -/
def stockTokenMap (s : String) : Option Bool :=
  if s = "true" ∨ s = "1" ∨ s = "yes" ∨ s = "y" ∨ s = "t" then some true
  else if s = "false" ∨ s = "0" ∨ s = "no" ∨ s = "n" ∨ s = "f" then some false
  else none

/-- Import loop state: the live `products` table (the collision SELECT sees
rows inserted earlier in the same uncommitted batch), the running `next_id`,
`rows_imported` and `rows_skipped`. -/
structure ImportState where
  ps       : List Product
  next_id  : Int
  imported : Nat
  skipped  : Nat
deriving Repr, DecidableEq

/-- One iteration of the per-row import loop.  Mirrors the Python body: strip
the name and skip when empty; in the names-only branch insert with the running
`next_id` and the defaults; otherwise parse `product_id` (empty cell means
`next_id`, which then advances; a `ValueError` skips the row), skip on a
collision with the live table, parse `shelf_number` (empty cell means the
default; `ValueError` skips), skip when outside `[1, 10]`, interpret the
stripped lowercased `in_stock` token (empty means the default; an unmapped
token skips), and insert. -/
def importRowStep (is_names_only : Bool) (idCol : Option String)
    (nameCol shelfCol stockCol : String) (default_shelf : Int)
    (default_stock : Bool) (st : ImportState) (row : Row) : ImportState :=
  let product_name := pyStrip (rowGetD row nameCol "")
  if product_name = "" then
    { st with skipped := st.skipped + 1 }
  else if is_names_only then
    { st with
      ps := st.ps ++ [⟨st.next_id, product_name, default_shelf, default_stock⟩],
      next_id := st.next_id + 1,
      imported := st.imported + 1 }
  else
    let idRaw := rowGetD row (idCol.getD "") ""
    match (if idRaw = "" then some st.next_id else pyInt? idRaw) with
    | none => { st with skipped := st.skipped + 1 }
    | some product_id =>
      let next_id := if idRaw = "" then st.next_id + 1 else st.next_id
      if st.ps.any (fun q => q.product_id == product_id) then
        { st with next_id := next_id, skipped := st.skipped + 1 }
      else
        let shelfRaw := rowGetD row shelfCol ""
        match (if shelfRaw = "" then some default_shelf else pyInt? shelfRaw) with
        | none => { st with next_id := next_id, skipped := st.skipped + 1 }
        | some shelf_number =>
          if ¬ (1 ≤ shelf_number ∧ shelf_number ≤ 10) then
            { st with next_id := next_id, skipped := st.skipped + 1 }
          else
            let stockRaw := pyLower (pyStrip (rowGetD row stockCol ""))
            match (if stockRaw = "" then some default_stock
                   else stockTokenMap stockRaw) with
            | none => { st with next_id := next_id, skipped := st.skipped + 1 }
            | some in_stock =>
              { st with
                ps := st.ps ++ [⟨product_id, product_name, shelf_number, in_stock⟩],
                next_id := next_id,
                imported := st.imported + 1 }

/-- Result of the import endpoint: a whole-import error response, or the
success message's `(rows_imported, rows_skipped)` counts. -/
inductive ImportResult where
  | error (msg : String)
  | success (imported skipped : Nat)
deriving Repr, DecidableEq

/-- `(c.fetchone()[0] or 0) + 1`: the initial `next_id` of an import. -/
def nextImportId (ps : List Product) : Int :=
  (maxProductId ps).getD 0 + 1

/-- Handler `POST /import_products`, from the point where the file has been
split into `DictReader` fieldnames and rows.  A single fieldname selects the
names-only branch; otherwise each logical column is resolved against its alias
list and a missing required column (every one but `product_id`, reported in
`column_mapping` order) fails the whole import.  The rows are then folded with
`importRowStep` and all successfully validated rows are committed. -/
def import_products (db : DB) (fieldnames : List String) (rows : List Row)
    (default_shelf : Int) (default_stock : Bool) : DB × ImportResult :=
  let is_names_only := fieldnames.length == 1
  if is_names_only then
    match namesOnlyNameCol fieldnames with
    | none => (db, .error "Missing product name column.")
    | some nameCol =>
      let final := rows.foldl
        (importRowStep true none nameCol "" "" default_shelf default_stock)
        ⟨db.products, nextImportId db.products, 0, 0⟩
      ({ db with products := final.ps }, .success final.imported final.skipped)
  else
    match resolveAlias fieldnames productNameAliases with
    | none => (db, .error "Missing column for product_name.")
    | some nameCol =>
      match resolveAlias fieldnames shelfNumberAliases with
      | none => (db, .error "Missing column for shelf_number.")
      | some shelfCol =>
        match resolveAlias fieldnames inStockAliases with
        | none => (db, .error "Missing column for in_stock.")
        | some stockCol =>
          let idCol := resolveAlias fieldnames productIdAliases
          let final := rows.foldl
            (importRowStep false idCol nameCol shelfCol stockCol
              default_shelf default_stock)
            ⟨db.products, nextImportId db.products, 0, 0⟩
          ({ db with products := final.ps },
           .success final.imported final.skipped)

/-- `csv.DictReader` on the decoded file lines, for files without quoting:
the first line supplies the fieldnames, and every later line is zipped with
them.  (Python drops extra cells into the rest key and fills missing ones with
`None`; the inputs considered here have exactly as many cells as fieldnames.) -/
def dictReader (lines : List String) :
    List String × List Row :=
  match lines with
  | [] => ([], [])
  | h :: rest =>
    let fields := splitComma h
    (fields, rest.map (fun line => fields.zip (splitComma line)))

/-- The import endpoint on raw file lines: `DictReader` then `import_products`.
(On a completely empty file the Python handler raises an uncaught `TypeError`
from `len(csv_reader.fieldnames)`; that case is mapped to an error response
here and is never relied on by a theorem.) -/
def import_csv_file (db : DB) (lines : List String) (default_shelf : Int)
    (default_stock : Bool) : DB × ImportResult :=
  match lines with
  | [] => (db, .error "TypeError")
  | _ :: _ =>
    let fr := dictReader lines
    import_products db fr.1 fr.2 default_shelf default_stock

/-!
Order lemmas: `strLe` agrees with Lean's linear order on `String`, and the
row comparison `reorderLE` is transitive and total.
-/

theorem charListLe_iff_not_lex (a b : List Char) :
    charListLe a b = true ↔ ¬ List.Lex (· < ·) b a := by
  induction a generalizing b with
  | nil =>
    cases b with
    | nil =>
      simp only [charListLe, true_iff]
      intro h; cases h
    | cons y ys =>
      simp only [charListLe, true_iff]
      intro h; cases h
  | cons x xs ih =>
    cases b with
    | nil =>
      simp only [charListLe, Bool.false_eq_true, false_iff, not_not]
      exact List.Lex.nil
    | cons y ys =>
      simp only [charListLe, decide_eq_true_eq]
      rcases lt_trichotomy x y with h | h | h
      · rw [if_pos h]
        simp only [true_iff]
        intro hc
        cases hc with
        | cons hc => exact lt_irrefl x h
        | rel hr => exact lt_asymm h hr
      · subst h
        rw [if_neg (lt_irrefl x), if_neg (lt_irrefl x), ih]
        constructor
        · intro hn hc
          cases hc with
          | cons hc => exact hn hc
          | rel hr => exact lt_irrefl x hr
        · intro hn hc
          exact hn (List.Lex.cons hc)
      · rw [if_neg (lt_asymm h), if_pos h]
        simp only [Bool.false_eq_true, false_iff, not_not]
        exact List.Lex.rel h

theorem strLe_iff (a b : String) : strLe a b = true ↔ a ≤ b := by
  rw [strLe, charListLe_iff_not_lex, String.le_iff_toList_le]
  show ¬ (b.toList < a.toList) ↔ a.toList ≤ b.toList
  exact not_lt

theorem reorderLE_iff (p q : Product) :
    reorderLE p q = true ↔
      p.shelf_number < q.shelf_number ∨
        (p.shelf_number = q.shelf_number ∧ p.product_name ≤ q.product_name) := by
  simp only [reorderLE, Bool.or_eq_true, Bool.and_eq_true, decide_eq_true_eq,
    beq_iff_eq, strLe_iff]

theorem reorderLE_trans (p q r : Product) :
    reorderLE p q → reorderLE q r → reorderLE p r := by
  simp only [reorderLE_iff]
  intro hpq hqr
  rcases hpq with h1 | ⟨h1, hn1⟩ <;> rcases hqr with h2 | ⟨h2, hn2⟩
  · exact Or.inl (h1.trans h2)
  · exact Or.inl (by omega)
  · exact Or.inl (by omega)
  · exact Or.inr ⟨h1.trans h2, hn1.trans hn2⟩

theorem reorderLE_total (p q : Product) : reorderLE p q || reorderLE q p := by
  simp only [Bool.or_eq_true, reorderLE_iff]
  rcases lt_trichotomy p.shelf_number q.shelf_number with h | h | h
  · exact Or.inl (Or.inl h)
  · rcases le_total p.product_name q.product_name with hn | hn
    · exact Or.inl (Or.inr ⟨h, hn⟩)
    · exact Or.inr (Or.inr ⟨h.symm, hn⟩)
  · exact Or.inr (Or.inl h)

/-!
Concrete stores used to instantiate theorems with hypotheses.
-/

/-- The ten shelves created by `init_db`, all unchecked. -/
def initShelves : List Shelf :=
  (List.range 10).map (fun i => ⟨(i : Int) + 1, false⟩)

/-- A small concrete store: two products, the ten shelves (unchecked), one
saved snapshot. -/
def dbSample : DB :=
  ⟨[⟨1, "ASPIRIN 81MG TAB", 1, true⟩, ⟨2, "PARACETAMOL 500 TAB", 2, false⟩],
   initShelves, [⟨1, "01-01-25_1:00pm", ["IBUPROFEN 400 TAB"]⟩], 2⟩

/-- A store with no products. -/
def dbEmpty : DB :=
  ⟨[], initShelves, [], 1⟩

/-- C1: the reorder list returned by get_reorder_list contains exactly the
products that are out of stock and sit on a checked shelf, and it is ordered
by shelf number ascending, then product name ascending. -/
theorem reorder_list_membership_and_order (db : DB) :
    (∀ p : Product, p ∈ (get_reorder_list db).2 ↔
      (p ∈ db.products ∧ p.in_stock = false ∧
        ∃ s ∈ db.shelves, s.shelf_number = p.shelf_number ∧ s.checked = true)) ∧
    List.Pairwise (fun p q : Product =>
      p.shelf_number < q.shelf_number ∨
        (p.shelf_number = q.shelf_number ∧ p.product_name ≤ q.product_name))
      (get_reorder_list db).2 := by
  constructor
  · intro p
    simp only [get_reorder_list, reorderQuery, List.mem_mergeSort, List.mem_filter,
      Bool.and_eq_true, Bool.not_eq_true', List.any_eq_true, beq_iff_eq]
  · have h := List.sorted_mergeSort reorderLE_trans reorderLE_total
      (db.products.filter (fun p =>
        !p.in_stock && db.shelves.any (fun s =>
          s.shelf_number == p.shelf_number && s.checked)))
    exact h.imp (fun hab => (reorderLE_iff _ _).mp hab)

/-- Instance of the C1 theorem at a concrete store. -/
theorem reorder_list_membership_and_order_witness :
    (∀ p : Product, p ∈ (get_reorder_list dbSample).2 ↔
      (p ∈ dbSample.products ∧ p.in_stock = false ∧
        ∃ s ∈ dbSample.shelves, s.shelf_number = p.shelf_number ∧ s.checked = true)) ∧
    List.Pairwise (fun p q : Product =>
      p.shelf_number < q.shelf_number ∨
        (p.shelf_number = q.shelf_number ∧ p.product_name ≤ q.product_name))
      (get_reorder_list dbSample).2 :=
  reorder_list_membership_and_order dbSample

/-- C2: after start_session with mode new, every product is in stock and
every shelf is unchecked. -/
theorem start_session_new_resets (db : DB) :
    (∀ p ∈ (start_session db SessionType.new).products, p.in_stock = true) ∧
    (∀ s ∈ (start_session db SessionType.new).shelves, s.checked = false) := by
  constructor
  · intro x hx
    simp only [start_session, List.mem_map] at hx
    obtain ⟨p, _, rfl⟩ := hx
    rfl
  · intro x hx
    simp only [start_session, List.mem_map] at hx
    obtain ⟨s, _, rfl⟩ := hx
    rfl

/-- Instance of the C2 theorem at a concrete store. -/
theorem start_session_new_resets_witness :
    (∀ p ∈ (start_session dbSample SessionType.new).products, p.in_stock = true) ∧
    (∀ s ∈ (start_session dbSample SessionType.new).shelves, s.checked = false) :=
  start_session_new_resets dbSample

/-- Membership in the id list that `update_shelf` collects for a shelf is
exactly membership of that shelf, provided product ids are unique (they are:
`product_id` is the table's INTEGER PRIMARY KEY). -/
theorem mem_shelfIds_iff (db : DB) (sn : Int) (p : Product)
    (hN : (db.products.map (fun q => q.product_id)).Nodup) (hp : p ∈ db.products) :
    ((db.products.filter (fun q => q.shelf_number == sn)).map (fun q => q.product_id)).contains
        p.product_id = true ↔ p.shelf_number = sn := by
  simp only [List.contains, List.elem_eq_mem, decide_eq_true_eq, List.mem_map,
    List.mem_filter, beq_iff_eq]
  constructor
  · rintro ⟨q, ⟨hq, hqs⟩, hqid⟩
    have : q = p := List.inj_on_of_nodup_map hN hq hp hqid
    subst this
    exact hqs
  · intro h
    exact ⟨p, ⟨hp, h⟩, rfl⟩

/-- C3: update_shelf sets the shelf's checked flag to the submitted value and
overwrites in_stock for every product of that shelf to whether its id is in
the asserted-present set, leaving all other products untouched. -/
theorem update_shelf_overwrites (db : DB) (sn : Int) (chk : Bool) (ids : List Int)
    (hN : (db.products.map (fun q => q.product_id)).Nodup) :
    (update_shelf db sn chk ids).1.shelves =
      db.shelves.map (fun s =>
        if s.shelf_number = sn then { s with checked := chk } else s) ∧
    (update_shelf db sn chk ids).1.products =
      db.products.map (fun p =>
        if p.shelf_number = sn then
          { p with in_stock := ids.contains p.product_id }
        else p) ∧
    (update_shelf db sn chk ids).2 = Status.success := by
  refine ⟨?_, ?_, rfl⟩
  · apply List.map_congr_left
    intro s _
    by_cases h : s.shelf_number = sn
    · simp [h]
    · simp [h]
  · apply List.map_congr_left
    intro p hp
    by_cases h : p.shelf_number = sn
    · rw [if_pos ((mem_shelfIds_iff db sn p hN hp).mpr h), if_pos h]
    · rw [if_neg, if_neg h]
      intro hc
      exact h ((mem_shelfIds_iff db sn p hN hp).mp hc)

/-- Instance of the C3 theorem at a concrete store. -/
theorem update_shelf_overwrites_witness :
    (dbSample.products.map (fun q => q.product_id)).Nodup ∧
    ((update_shelf dbSample 2 true [2]).1.shelves =
      dbSample.shelves.map (fun s =>
        if s.shelf_number = 2 then { s with checked := true } else s) ∧
    (update_shelf dbSample 2 true [2]).1.products =
      dbSample.products.map (fun p =>
        if p.shelf_number = 2 then
          { p with in_stock := [(2 : Int)].contains p.product_id }
        else p) ∧
    (update_shelf dbSample 2 true [2]).2 = Status.success) :=
  ⟨by decide, update_shelf_overwrites dbSample 2 true [2] (by decide)⟩

/-- C6: editing a product to an id already used by a different product fails
with the duplicate-id error and leaves the store untouched. -/
theorem edit_product_duplicate_id_error (db : DB) (pid new_pid : Int) (name : String)
    (shelf : Int) (stock : Bool)
    (h : ∃ q ∈ db.products, q.product_id = new_pid ∧ q.product_id ≠ pid) :
    edit_product db pid new_pid name shelf stock =
      (db, Status.error "Product ID already exists.") := by
  have hc : db.products.any (fun q =>
      q.product_id == new_pid && q.product_id != pid) = true := by
    obtain ⟨q, hq, h1, h2⟩ := h
    simp only [List.any_eq_true]
    subst h1
    exact ⟨q, hq, by simp [h2]⟩
  simp [edit_product, hc]

/-- Instance of the C6 theorem at a concrete store. -/
theorem edit_product_duplicate_id_error_witness :
    (∃ q ∈ dbSample.products, q.product_id = 1 ∧ q.product_id ≠ 2) ∧
    edit_product dbSample 2 1 "PARACETAMOL 500 TAB" 2 false =
      (dbSample, Status.error "Product ID already exists.") :=
  ⟨by decide, edit_product_duplicate_id_error dbSample 2 1 "PARACETAMOL 500 TAB" 2 false
    (by decide)⟩

/-- C7 counterexample: id 42 names no product of the sample store, yet
delete_product reports plain success rather than a not-found error. -/
theorem delete_product_missing_id_reports_success :
    dbSample.products.all (fun p => p.product_id != 42) = true ∧
    (delete_product dbSample 42).2 = Status.success := by
  decide

/-- C7 amended: delete_reorder_list on a missing snapshot id returns the
explicit not-found error and changes nothing, while delete_product always
reports success, whether or not the id exists. -/
theorem delete_not_found_reporting (db : DB) (pid lid : Int)
    (h : ∀ l ∈ db.reorder_lists, l.id ≠ lid) :
    delete_reorder_list db lid = (db, Status.error "Reorder list not found.") ∧
    (delete_product db pid).2 = Status.success := by
  refine ⟨?_, rfl⟩
  rw [delete_reorder_list, if_neg]
  simp only [List.any_eq_true, beq_iff_eq, not_exists]
  rintro l ⟨hl, he⟩
  exact h l hl he

/-- Instance of the amended C7 theorem at a concrete store. -/
theorem delete_not_found_reporting_witness :
    (∀ l ∈ dbSample.reorder_lists, l.id ≠ 42) ∧
    (delete_reorder_list dbSample 42 =
      (dbSample, Status.error "Reorder list not found.") ∧
    (delete_product dbSample 7).2 = Status.success) :=
  ⟨by decide, delete_not_found_reporting dbSample 7 42 (by decide)⟩

/-- C8: exporting the current reorder list (any format) appends exactly one
snapshot holding the list's product names and changes nothing else, while the
plain view path leaves the store entirely unchanged. -/
theorem export_snapshots_view_does_not (db : DB) (fmt : ExportFormat) (ts : String) :
    (export_reorder_list db fmt ts).1.products = db.products ∧
    (export_reorder_list db fmt ts).1.shelves = db.shelves ∧
    (export_reorder_list db fmt ts).1.reorder_lists =
      db.reorder_lists ++
        [⟨db.next_list_id, ts, (reorderQuery db).map (fun p => p.product_name)⟩] ∧
    (get_reorder_list db).1 = db :=
  ⟨rfl, rfl, rfl, rfl⟩

/-- C10: with an empty current reorder list, save_reorder_list returns its
error and writes nothing, while export_reorder_list still appends a snapshot
whose name list is empty. -/
theorem save_empty_errors_export_snapshots (db : DB) (ts : String) (fmt : ExportFormat)
    (h : reorderQuery db = []) :
    save_reorder_list db ts =
      (db, Status.error "No items in the reorder list to save.") ∧
    (export_reorder_list db fmt ts).1.reorder_lists =
      db.reorder_lists ++ [⟨db.next_list_id, ts, []⟩] := by
  constructor
  · simp [save_reorder_list, h]
  · simp [export_reorder_list, h]

/-- The sample store's reorder list is empty (its only out-of-stock product
sits on an unchecked shelf). -/
theorem reorderQuery_dbSample : reorderQuery dbSample = [] := by
  have h : dbSample.products.filter (fun p =>
      !p.in_stock && dbSample.shelves.any (fun s =>
        s.shelf_number == p.shelf_number && s.checked)) = [] := by decide
  rw [reorderQuery, h, List.mergeSort_nil]

/-- Instance of the C10 theorem at a concrete store. -/
theorem save_empty_errors_export_snapshots_witness :
    reorderQuery dbSample = [] ∧
    (save_reorder_list dbSample "02-01-25_2:00pm" =
      (dbSample, Status.error "No items in the reorder list to save.") ∧
    (export_reorder_list dbSample ExportFormat.json "02-01-25_2:00pm").1.reorder_lists =
      dbSample.reorder_lists ++ [⟨dbSample.next_list_id, "02-01-25_2:00pm", []⟩]) :=
  ⟨reorderQuery_dbSample,
   save_empty_errors_export_snapshots dbSample "02-01-25_2:00pm" ExportFormat.json
     reorderQuery_dbSample⟩

/-- The data-model invariant: every product's shelf_number references one of
the ten fixed shelves, i.e. lies in 1..10. -/
def shelfInvariant (db : DB) : Prop :=
  ∀ p ∈ db.products, 1 ≤ p.shelf_number ∧ p.shelf_number ≤ 10

instance (db : DB) : Decidable (shelfInvariant db) :=
  List.decidableBAll _ db.products

/-- C9 counterexample: the sample store satisfies the invariant, yet
add_product accepts shelf number 99 unvalidated and breaks it. -/
theorem add_product_out_of_range_shelf :
    shelfInvariant dbSample ∧
    ¬ shelfInvariant (add_product dbSample "GAUZE PADS" 99 true).1 := by
  decide

/-- One import row keeps every stored shelf number in range, provided the
default shelf is in range whenever the names-only branch is taken (the
multi-column branch range-checks the value it stores). -/
theorem importRowStep_shelf_range (no : Bool) (idCol : Option String)
    (nameCol shelfCol stockCol : String) (d : Int) (b : Bool) (st : ImportState) (row : Row)
    (hd : no = true → 1 ≤ d ∧ d ≤ 10)
    (hst : ∀ p ∈ st.ps, 1 ≤ p.shelf_number ∧ p.shelf_number ≤ 10) :
    ∀ p ∈ (importRowStep no idCol nameCol shelfCol stockCol d b st row).ps,
      1 ≤ p.shelf_number ∧ p.shelf_number ≤ 10 := by
  simp only [importRowStep]
  split
  · exact hst
  · split
    · next _ hno =>
      intro p hp
      rcases List.mem_append.mp hp with h | h
      · exact hst p h
      · rcases List.mem_singleton.mp h with rfl
        exact hd hno
    · split
      · exact hst
      · split
        · exact hst
        · split
          · exact hst
          · split
            · exact hst
            · next hrange =>
              split
              · exact hst
              · intro p hp
                rcases List.mem_append.mp hp with h | h
                · exact hst p h
                · rcases List.mem_singleton.mp h with rfl
                  exact not_not.mp hrange

/-- The whole import loop keeps every stored shelf number in range. -/
theorem importFold_shelf_range (no : Bool) (idCol : Option String)
    (nameCol shelfCol stockCol : String) (d : Int) (b : Bool) (rows : List Row)
    (st : ImportState)
    (hd : no = true → 1 ≤ d ∧ d ≤ 10)
    (hst : ∀ p ∈ st.ps, 1 ≤ p.shelf_number ∧ p.shelf_number ≤ 10) :
    ∀ p ∈ (rows.foldl (importRowStep no idCol nameCol shelfCol stockCol d b) st).ps,
      1 ≤ p.shelf_number ∧ p.shelf_number ≤ 10 := by
  induction rows generalizing st with
  | nil => exact hst
  | cons r rs ih =>
    exact ih _ (importRowStep_shelf_range no idCol nameCol shelfCol stockCol d b st r hd hst)

/-- C9 amended: add_product and edit_product preserve the shelf invariant only
when the caller-supplied shelf number is itself in 1..10 (they do not validate
it); import_products preserves it whenever its multi-column branch runs, and
in the names-only branch whenever the default shelf is in 1..10. -/
theorem crud_shelf_invariant (db : DB) (name : String) (shelf : Int) (stock : Bool)
    (pid new_pid : Int) (fieldnames : List String) (rows : List Row) (d : Int) (b : Bool)
    (hdb : shelfInvariant db) (hshelf : 1 ≤ shelf ∧ shelf ≤ 10)
    (hd : fieldnames.length = 1 → 1 ≤ d ∧ d ≤ 10) :
    shelfInvariant (add_product db name shelf stock).1 ∧
    shelfInvariant (edit_product db pid new_pid name shelf stock).1 ∧
    shelfInvariant (import_products db fieldnames rows d b).1 := by
  refine ⟨?_, ?_, ?_⟩
  · intro p hp
    rcases List.mem_append.mp hp with h | h
    · exact hdb p h
    · rcases List.mem_singleton.mp h with rfl
      exact hshelf
  · rw [edit_product]
    split
    · exact hdb
    · intro p hp
      simp only [List.mem_map] at hp
      obtain ⟨q, hq, rfl⟩ := hp
      by_cases h : q.product_id == pid
      · simp only [if_pos h]
        exact hshelf
      · simp only [if_neg h]
        exact hdb q hq
  · rw [import_products]
    split
    · next hlen =>
      split
      · exact hdb
      · exact importFold_shelf_range true none _ "" "" d b rows
          ⟨db.products, nextImportId db.products, 0, 0⟩
          (fun _ => hd (by simpa using hlen)) hdb
    · split
      · exact hdb
      · split
        · exact hdb
        · split
          · exact hdb
          · exact importFold_shelf_range false (resolveAlias fieldnames productIdAliases)
              _ _ _ d b rows
              ⟨db.products, nextImportId db.products, 0, 0⟩
              (fun hc => absurd hc (by simp)) hdb

/-- Instance of the amended C9 theorem at a concrete store. -/
theorem crud_shelf_invariant_witness :
    (shelfInvariant dbSample ∧ (1 ≤ (3 : Int) ∧ (3 : Int) ≤ 10) ∧
      (["name", "shelf", "stock"].length = 1 → 1 ≤ (5 : Int) ∧ (5 : Int) ≤ 10)) ∧
    (shelfInvariant (add_product dbSample "GAUZE PADS" 3 true).1 ∧
    shelfInvariant (edit_product dbSample 1 3 "GAUZE PADS" 3 true).1 ∧
    shelfInvariant (import_products dbSample ["name", "shelf", "stock"] [] 5 true).1) :=
  ⟨⟨by decide, by decide, by decide⟩,
   crud_shelf_invariant dbSample "GAUZE PADS" 3 true 1 3 ["name", "shelf", "stock"] [] 5 true
     (by decide) (by decide) (by decide)⟩

/-!
Names-only CSV import (C4).
-/

/-- Expected result of a names-only import: one product per name, stripped,
with the default shelf and stock flag and sequentially increasing ids. -/
def seqProducts (i : Int) (names : List String) (d : Int) (b : Bool) : List Product :=
  match names with
  | [] => []
  | n :: rest => ⟨i, pyStrip n, d, b⟩ :: seqProducts (i + 1) rest d b

theorem splitCommaAux_no_comma (l acc : List Char) (h : ',' ∉ l) :
    splitCommaAux l acc = [⟨acc.reverse ++ l⟩] := by
  induction l generalizing acc with
  | nil => simp [splitCommaAux]
  | cons c rest ih =>
    rw [splitCommaAux, if_neg, ih _ (fun hm => h (List.mem_cons_of_mem c hm))]
    · simp [List.append_assoc]
    · simp only [beq_iff_eq]
      intro hc
      exact h (hc ▸ List.mem_cons_self c rest)

theorem splitComma_no_comma (s : String) (h : ',' ∉ s.data) :
    splitComma s = [s] := by
  rw [splitComma, splitCommaAux_no_comma _ _ h]
  rfl

/-- On a comma-free single-column file, `DictReader` takes the first line as
the lone fieldname and each later line as a one-cell row. -/
theorem dictReader_single_column (header : String) (names : List String)
    (hh : ',' ∉ header.data) (hn : ∀ n ∈ names, ',' ∉ n.data) :
    dictReader (header :: names) =
      ([header], names.map (fun n => [(header, n)])) := by
  simp only [dictReader, splitComma_no_comma header hh]
  congr 1
  apply List.map_congr_left
  intro n hmem
  rw [splitComma_no_comma n (hn n hmem)]
  rfl

/-- With a single fieldname, the names-only column choice always selects it
(whether or not it matches a product_name alias). -/
theorem namesOnlyNameCol_singleton (h : String) : namesOnlyNameCol [h] = some h := by
  simp only [namesOnlyNameCol]
  cases hf : [h].find? (fun f => (productNameAliases.map pyLower).contains (pyLower f)) with
  | none => rfl
  | some f =>
    have hmem : f ∈ [h] := List.mem_of_find?_eq_some hf
    rw [List.mem_singleton] at hmem
    subst hmem
    rfl

/-- The names-only import loop on rows whose names are non-blank after
stripping: appends one product per row with consecutive ids and counts them
all as imported. -/
theorem namesOnly_fold (nameCol : String) (d : Int) (b : Bool) (names : List String)
    (st : ImportState) (hn : ∀ n ∈ names, pyStrip n ≠ "") :
    (names.map (fun n => [(nameCol, n)])).foldl
        (importRowStep true none nameCol "" "" d b) st =
      ⟨st.ps ++ seqProducts st.next_id names d b,
       st.next_id + names.length, st.imported + names.length, st.skipped⟩ := by
  induction names generalizing st with
  | nil =>
    obtain ⟨ps, ni, imp, sk⟩ := st
    simp [seqProducts]
  | cons n rest ih =>
    have hrow : rowGetD [(nameCol, n)] nameCol "" = n := by
      simp [rowGetD, List.find?]
    have hstep : importRowStep true none nameCol "" "" d b st [(nameCol, n)] =
        ⟨st.ps ++ [⟨st.next_id, pyStrip n, d, b⟩],
         st.next_id + 1, st.imported + 1, st.skipped⟩ := by
      simp only [importRowStep, hrow]
      rw [if_neg (hn n (List.mem_cons_self n rest))]
      simp only [if_true]
    rw [List.map_cons, List.foldl_cons, hstep,
      ih _ (fun m hm => hn m (List.mem_cons_of_mem n hm))]
    simp only [ImportState.mk.injEq, seqProducts]
    refine ⟨by simp [List.append_assoc], ?_, ?_, trivial⟩
    · simp only [List.length_cons]
      push_cast
      omega
    · simp only [List.length_cons]
      omega

/-- C4 amended: for a comma-free single-column file whose first line is
consumed as the header and whose remaining N lines are names that are
non-blank after stripping, the import adds exactly those N names as products
with the default shelf and stock flag and sequential ids starting one past
the maximum existing id. -/
theorem names_only_import_appends_sequentially (db : DB) (header : String)
    (names : List String) (d : Int) (b : Bool)
    (hh : ',' ∉ header.data) (hn : ∀ n ∈ names, ',' ∉ n.data ∧ pyStrip n ≠ "") :
    import_csv_file db (header :: names) d b =
      ({ db with products :=
          db.products ++ seqProducts (nextImportId db.products) names d b },
       ImportResult.success names.length 0) := by
  simp only [import_csv_file]
  rw [dictReader_single_column header names hh (fun n hm => (hn n hm).1)]
  simp only [import_products, namesOnlyNameCol_singleton, List.length_cons,
    List.length_nil, Nat.zero_add, beq_self_eq_true, if_true]
  rw [namesOnly_fold header d b names _ (fun n hm => (hn n hm).2)]
  simp

/-- Instance of the amended C4 theorem at a concrete store. -/
theorem names_only_import_appends_sequentially_witness :
    ((',' ∉ "items".data) ∧
      (∀ n ∈ ["GAUZE PADS", "COTTON ROLLS"], ',' ∉ n.data ∧ pyStrip n ≠ "")) ∧
    import_csv_file dbSample ("items" :: ["GAUZE PADS", "COTTON ROLLS"]) 3 true =
      ({ dbSample with products :=
          dbSample.products ++
            seqProducts (nextImportId dbSample.products) ["GAUZE PADS", "COTTON ROLLS"] 3 true },
       ImportResult.success 2 0) :=
  ⟨⟨by decide, by decide⟩,
   names_only_import_appends_sequentially dbSample "items" ["GAUZE PADS", "COTTON ROLLS"]
     3 true (by decide) (by decide)⟩

/-- C4 counterexample: a headerless single-column file of two names imports
only one product; `csv.DictReader` consumes the first name as the header
line, so the claimed N-names-to-N-products behaviour fails. -/
theorem names_only_import_drops_first_line :
    (import_csv_file dbEmpty ["NEW PRODUCT A", "NEW PRODUCT B"] 3 true).2 =
      ImportResult.success 1 0 ∧
    (import_csv_file dbEmpty ["NEW PRODUCT A", "NEW PRODUCT B"] 3 true).1.products =
      [⟨1, "NEW PRODUCT B", 3, true⟩] := by
  decide

/-- The in-stock token dictionary written as membership of the two literal
token lists. -/
theorem stockTokenMap_eq (s : String) :
    stockTokenMap s =
      if s ∈ ["true", "1", "yes", "y", "t"] then some true
      else if s ∈ ["false", "0", "no", "n", "f"] then some false
      else none := by
  simp [stockTokenMap, List.mem_cons, List.mem_singleton, List.not_mem_nil, or_false]

/-- The multi-column row-skip condition exactly as the specification words
it: empty product name, explicit product_id colliding with an existing
product, shelf_number outside [1,10] (the default applying to an empty
cell), or a non-empty unrecognised in-stock token.  Unparseable numeric
fields satisfy none of these conditions.  Stated over the pre-import
products table. -/
def specSkipCond (existing : List Product) (default_shelf : Int) (idCol : Option String)
    (nameCol shelfCol stockCol : String) (row : Row) : Bool :=
  let name := pyStrip (rowGetD row nameCol "")
  let idRaw := rowGetD row (idCol.getD "") ""
  let shelfRaw := rowGetD row shelfCol ""
  let stockRaw := pyLower (pyStrip (rowGetD row stockCol ""))
  (name == "") ||
    (idRaw != "" &&
      (match pyInt? idRaw with
       | some v => existing.any (fun q => q.product_id == v)
       | none => false)) ||
    (match (if shelfRaw == "" then some default_shelf else pyInt? shelfRaw) with
     | some v => decide (¬ (1 ≤ v ∧ v ≤ 10))
     | none => false) ||
    (stockRaw != "" && (stockTokenMap stockRaw).isNone)

/-- C5 counterexample: a row whose shelf cell is the non-numeric token x is
skipped by the code (the int() call raises ValueError, caught by the per-row
handler), yet it meets none of the four skip conditions the claim lists. -/
theorem import_skip_condition_counterexample :
    (import_products dbEmpty ["name", "shelf", "stock"]
        [[("name", "GAUZE PADS"), ("shelf", "x"), ("stock", "yes")]] 1 true).2 =
      ImportResult.success 0 1 ∧
    specSkipCond dbEmpty.products 1 none "name" "shelf" "stock"
      [("name", "GAUZE PADS"), ("shelf", "x"), ("stock", "yes")] = false := by
  decide

/-- C5 amended: a multi-column row either skips (counter up one, no insert)
or imports (one product appended), and it skips exactly when the name strips
to empty, the explicit product_id fails to parse, the effective product_id
(explicit, or the auto-assigned counter for an empty cell) collides with the
live table (existing rows plus this batch's earlier inserts), the shelf cell
fails to parse, the effective shelf number (default for an empty cell) is
outside 1..10, or the stripped lowercased in-stock token is non-empty and
unrecognised; the token dictionary maps true/1/yes/y/t to true and
false/0/no/n/f to false, and an empty token means the default. -/
theorem import_row_skip_characterisation (st : ImportState) (idCol : Option String)
    (nameCol shelfCol stockCol : String) (d : Int) (b : Bool) (row : Row) :
    ((importRowStep false idCol nameCol shelfCol stockCol d b st row).skipped =
        st.skipped + 1 ∨
     ((importRowStep false idCol nameCol shelfCol stockCol d b st row).skipped =
        st.skipped ∧
      (importRowStep false idCol nameCol shelfCol stockCol d b st row).imported =
        st.imported + 1)) ∧
    ((importRowStep false idCol nameCol shelfCol stockCol d b st row).skipped =
        st.skipped + 1 ↔
      (pyStrip (rowGetD row nameCol "") = "" ∨
       (rowGetD row (idCol.getD "") "" ≠ "" ∧
         pyInt? (rowGetD row (idCol.getD "") "") = none) ∨
       (∃ v, (if rowGetD row (idCol.getD "") "" = "" then some st.next_id
              else pyInt? (rowGetD row (idCol.getD "") "")) = some v ∧
             ∃ q ∈ st.ps, q.product_id = v) ∨
       (rowGetD row shelfCol "" ≠ "" ∧ pyInt? (rowGetD row shelfCol "") = none) ∨
       (∃ v, (if rowGetD row shelfCol "" = "" then some d
              else pyInt? (rowGetD row shelfCol "")) = some v ∧ ¬ (1 ≤ v ∧ v ≤ 10)) ∨
       (pyLower (pyStrip (rowGetD row stockCol "")) ≠ "" ∧
        stockTokenMap (pyLower (pyStrip (rowGetD row stockCol ""))) = none))) ∧
    (∀ s : String,
      stockTokenMap s =
        if s ∈ ["true", "1", "yes", "y", "t"] then some true
        else if s ∈ ["false", "0", "no", "n", "f"] then some false
        else none) := by
  simp only [importRowStep]
  by_cases h1 : pyStrip (rowGetD row nameCol "") = ""
  · rw [if_pos h1]
    exact ⟨Or.inl rfl, ⟨fun _ => Or.inl h1, fun _ => rfl⟩, stockTokenMap_eq⟩
  · rw [if_neg h1]
    simp only [Bool.false_eq_true, if_false]
    cases hid : (if rowGetD row (idCol.getD "") "" = "" then some st.next_id
                 else pyInt? (rowGetD row (idCol.getD "") "")) with
    | none =>
      have hid2 : rowGetD row (idCol.getD "") "" ≠ "" ∧
          pyInt? (rowGetD row (idCol.getD "") "") = none := by
        by_cases he : rowGetD row (idCol.getD "") "" = ""
        · rw [if_pos he] at hid
          cases hid
        · rw [if_neg he] at hid
          exact ⟨he, hid⟩
      exact ⟨Or.inl rfl, ⟨fun _ => Or.inr (Or.inl hid2), fun _ => rfl⟩, stockTokenMap_eq⟩
    | some pid =>
      dsimp only
      by_cases hcol : (st.ps.any fun q => q.product_id == pid) = true
      · rw [if_pos hcol]
        obtain ⟨q, hq, hbeq⟩ := List.any_eq_true.mp hcol
        refine ⟨Or.inl rfl,
          ⟨fun _ => Or.inr (Or.inr (Or.inl ⟨pid, rfl, q, hq, ?_⟩)), fun _ => rfl⟩,
          stockTokenMap_eq⟩
        exact beq_iff_eq.mp hbeq
      · rw [if_neg hcol]
        cases hsh : (if rowGetD row shelfCol "" = "" then some d
                     else pyInt? (rowGetD row shelfCol "")) with
        | none =>
          have hsh2 : rowGetD row shelfCol "" ≠ "" ∧
              pyInt? (rowGetD row shelfCol "") = none := by
            by_cases he : rowGetD row shelfCol "" = ""
            · rw [if_pos he] at hsh
              cases hsh
            · rw [if_neg he] at hsh
              exact ⟨he, hsh⟩
          exact ⟨Or.inl rfl,
            ⟨fun _ => Or.inr (Or.inr (Or.inr (Or.inl hsh2))), fun _ => rfl⟩,
            stockTokenMap_eq⟩
        | some sv =>
          dsimp only
          by_cases hr : ¬ (1 ≤ sv ∧ sv ≤ 10)
          · rw [if_pos hr]
            exact ⟨Or.inl rfl,
              ⟨fun _ => Or.inr (Or.inr (Or.inr (Or.inr (Or.inl ⟨sv, rfl, hr⟩)))),
               fun _ => rfl⟩,
              stockTokenMap_eq⟩
          · rw [if_neg hr]
            cases hstk : (if pyLower (pyStrip (rowGetD row stockCol "")) = "" then some b
                          else stockTokenMap (pyLower (pyStrip (rowGetD row stockCol "")))) with
            | none =>
              have hstk2 : pyLower (pyStrip (rowGetD row stockCol "")) ≠ "" ∧
                  stockTokenMap (pyLower (pyStrip (rowGetD row stockCol ""))) = none := by
                by_cases he : pyLower (pyStrip (rowGetD row stockCol "")) = ""
                · rw [if_pos he] at hstk
                  cases hstk
                · rw [if_neg he] at hstk
                  exact ⟨he, hstk⟩
              exact ⟨Or.inl rfl,
                ⟨fun _ => Or.inr (Or.inr (Or.inr (Or.inr (Or.inr hstk2)))), fun _ => rfl⟩,
                stockTokenMap_eq⟩
            | some sb =>
              dsimp only
              refine ⟨Or.inr ⟨rfl, rfl⟩,
                ⟨fun h => absurd h (by omega), fun hd => absurd hd ?_⟩,
                stockTokenMap_eq⟩
              rintro (h | ⟨hne, hnone⟩ | ⟨v, hv, q, hq, hqid⟩ | ⟨hne, hnone⟩ |
                ⟨v, hv, hout⟩ | ⟨hne, hnone⟩)
              · exact h1 h
              · rw [if_neg hne, hnone] at hid
                cases hid
              · injection hv with hv
                subst hv
                exact hcol (List.any_eq_true.mpr ⟨q, hq, beq_iff_eq.mpr hqid⟩)
              · rw [if_neg hne, hnone] at hsh
                cases hsh
              · injection hv with hv
                subst hv
                exact hout (not_not.mp hr)
              · rw [if_neg hne, hnone] at hstk
                cases hstk

end Stoka
